import Mathlib

/-!
Shallow embedding of the TTY listing utility found at
`dist/tools/usb-serial/ttys.py` together with proofs about its
filter-and-format pipeline.

The Python program is modelled as follows:
  * machine strings are Lean `String`s (Python `len` and slicing count code
    points, as does Lean `String.length` over `String.data`);
  * the dynamic `dict` produced by `tty2dict` becomes the structure
    `TTYDict` whose field types record the shapes a successful extraction
    is guaranteed to produce (`path` a string, `ctime` a number, the seven
    optional udev properties `Option String`);
  * code that can raise becomes `Except PyError`;
  * the in-place update performed by the table renderer is made visible by
    letting the printing function return the post-call state of every
    record as a `TTYRecState`, whose fields are dynamically typed `Value`s;
  * the regex engine is abstracted by a match oracle for the user-supplied
    patterns, while the serial filter (whose pattern is built by the
    program itself from `re.escape`) is given its exact semantics;
  * `ctime` values (Python floats obtained from `os.stat`) are modelled as
    rationals; only ordering, equality and display of such timestamps
    occur in the program.
-/

namespace Ttys

/-- Decidable equality of `Except` results, used to evaluate concrete
runs of the embedded functions. -/
instance {ε α : Type} [DecidableEq ε] [DecidableEq α] :
    DecidableEq (Except ε α) := fun a b =>
  match a, b with
  | .ok x, .ok y =>
    if h : x = y then isTrue (by rw [h])
    else isFalse (by intro hc; injection hc; contradiction)
  | .error e, .error e2 =>
    if h : e = e2 then isTrue (by rw [h])
    else isFalse (by intro hc; injection hc; contradiction)
  | .ok _, .error _ => isFalse (by intro hc; exact Except.noConfusion hc)
  | .error _, .ok _ => isFalse (by intro hc; exact Except.noConfusion hc)

/-- Python exception classes the modelled code can raise. -/
inductive PyError
  | typeError
  | valueError
  | keyError
  | indexError
  | attributeError
  | unicodeDecodeError
  | unicodeEncodeError
  | osError
deriving DecidableEq

/-- Whitespace in the sense of Python `str.split()` and `int()` stripping
(the ASCII whitespace characters; exotic Unicode whitespace is not used by
the program or its inputs in this development). -/
def pyIsSpace (c : Char) : Bool :=
  c = ' ' || c = '\t' || c = '\n' || c = '\x0d' || c = '\x0b' || c = '\x0c'

/-- Does the first character list appear as a prefix of the second? -/
def startsChars : List Char → List Char → Bool
  | [], _ => true
  | _ :: _, [] => false
  | a :: as, b :: bs => a = b && startsChars as bs

/-- Does `sub` occur as a contiguous sublist? -/
def occursChars (sub : List Char) : List Char → Bool
  | [] => sub.isEmpty
  | c :: rest => startsChars sub (c :: rest) || occursChars sub rest

/-- Python `item.rfind(sub) >= 0`: does `sub` occur in `s` (always true for
the empty `sub`, as with Python `rfind`)? -/
def containsStr (s sub : String) : Bool := occursChars sub.data s.data

/-- Python string slicing `s[n:]` (counting code points). -/
def strDrop (s : String) (n : Nat) : String := String.mk (s.data.drop n)

/-- Python format specifier `f"{s:{w}}"`: left justify, pad with spaces,
never truncate. -/
def padTo (s : String) (w : Nat) : String :=
  s ++ String.mk (List.replicate (w - s.length) ' ')

/-- A run of `n` dash characters, Python `n * "-"`. -/
def dashes (n : Nat) : String := String.mk (List.replicate n '-')

/-- Worker for `pySplit`: split at whitespace runs, dropping empty pieces. -/
def splitWs (acc : List Char) : List Char → List String
  | [] => if acc.isEmpty then [] else [String.mk acc.reverse]
  | c :: rest =>
    if pyIsSpace c then
      if acc.isEmpty then splitWs [] rest
      else String.mk acc.reverse :: splitWs [] rest
    else splitWs (c :: acc) rest

/-- Python `str.split()` with no argument: split on whitespace runs, no
empty pieces. -/
def pySplit (s : String) : List String := splitWs [] s.data

/-- UTF-8 encoding of one code point, as Python `bytes(s, "utf8")` uses. -/
def utf8EncodeChar (c : Char) : List Nat :=
  let n := c.toNat
  if n < 128 then [n]
  else if n < 2048 then [192 + n / 64, 128 + n % 64]
  else if n < 65536 then [224 + n / 4096, 128 + n / 64 % 64, 128 + n % 64]
  else [240 + n / 262144, 128 + n / 4096 % 64, 128 + n / 64 % 64, 128 + n % 64]

/-- UTF-8 encoding of a string as a byte list, Python `bytes(s, "utf8")`. -/
def utf8Encode (s : String) : List Nat := (s.data.map utf8EncodeChar).flatten

/-- Value of a hexadecimal digit given as a byte, if it is one. -/
def hexVal? (b : Nat) : Option Nat :=
  if 48 ≤ b ∧ b ≤ 57 then some (b - 48)
  else if 97 ≤ b ∧ b ≤ 102 then some (b - 87)
  else if 65 ≤ b ∧ b ≤ 70 then some (b - 55)
  else none

/-- Value of an octal digit given as a byte, if it is one. -/
def octVal? (b : Nat) : Option Nat :=
  if 48 ≤ b ∧ b ≤ 55 then some (b - 48) else none

/-- Read exactly four hex digit bytes. -/
def hex4Bytes? : List Nat → Option (Nat × List Nat)
  | b1 :: b2 :: b3 :: b4 :: rest =>
    match hexVal? b1, hexVal? b2, hexVal? b3, hexVal? b4 with
    | some h1, some h2, some h3, some h4 =>
      some (h1 * 4096 + h2 * 256 + h3 * 16 + h4, rest)
    | _, _, _, _ => none
  | _ => none

/-- Decoder of the Python `unicode_escape` codec on a byte list, producing
code points.  Bytes outside escape sequences are taken latin-1 style; the
recognised escapes are those of CPython (`\newline`, the single character
escapes, up to three octal digits, `\xHH`, `\uXXXX`, `\UXXXXXXXX`); a
malformed hex escape, a `\U` value beyond the code point range, a trailing
backslash, and the `\N` named escape (which would need the Unicode name
table and is unused here) are decode errors; an unrecognised escape keeps
the backslash and the following byte, as CPython does. -/
def uescapeGo : Nat → List Nat → Except PyError (List Nat)
  | _, [] => .ok []
  | 0, _ :: _ => .error .unicodeDecodeError
  | fuel + 1, 92 :: rest =>
    match rest with
    | [] => .error .unicodeDecodeError
    | e :: rest1 =>
      if e = 10 then uescapeGo fuel rest1
      else if e = 92 then (fun l => 92 :: l) <$> uescapeGo fuel rest1
      else if e = 39 then (fun l => 39 :: l) <$> uescapeGo fuel rest1
      else if e = 34 then (fun l => 34 :: l) <$> uescapeGo fuel rest1
      else if e = 97 then (fun l => 7 :: l) <$> uescapeGo fuel rest1
      else if e = 98 then (fun l => 8 :: l) <$> uescapeGo fuel rest1
      else if e = 102 then (fun l => 12 :: l) <$> uescapeGo fuel rest1
      else if e = 110 then (fun l => 10 :: l) <$> uescapeGo fuel rest1
      else if e = 114 then (fun l => 13 :: l) <$> uescapeGo fuel rest1
      else if e = 116 then (fun l => 9 :: l) <$> uescapeGo fuel rest1
      else if e = 118 then (fun l => 11 :: l) <$> uescapeGo fuel rest1
      else
        match octVal? e with
        | some d1 =>
          match rest1 with
          | [] => .ok [d1]
          | b2 :: rest2 =>
            match octVal? b2 with
            | none => (fun l => d1 :: l) <$> uescapeGo fuel (b2 :: rest2)
            | some d2 =>
              match rest2 with
              | [] => .ok [d1 * 8 + d2]
              | b3 :: rest3 =>
                match octVal? b3 with
                | none => (fun l => (d1 * 8 + d2) :: l) <$> uescapeGo fuel (b3 :: rest3)
                | some d3 => (fun l => (d1 * 64 + d2 * 8 + d3) :: l) <$> uescapeGo fuel rest3
        | none =>
          if e = 120 then
            match rest1 with
            | b1 :: b2 :: rest2 =>
              match hexVal? b1, hexVal? b2 with
              | some h1, some h2 => (fun l => (h1 * 16 + h2) :: l) <$> uescapeGo fuel rest2
              | _, _ => .error .unicodeDecodeError
            | _ => .error .unicodeDecodeError
          else if e = 117 then
            match hex4Bytes? rest1 with
            | some (v, rest2) => (fun l => v :: l) <$> uescapeGo fuel rest2
            | none => .error .unicodeDecodeError
          else if e = 85 then
            match hex4Bytes? rest1 with
            | some (hi, restMid) =>
              match hex4Bytes? restMid with
              | some (lo, rest2) =>
                let v := hi * 65536 + lo
                if v < 1114112 then (fun l => v :: l) <$> uescapeGo fuel rest2
                else .error .unicodeDecodeError
              | none => .error .unicodeDecodeError
            | none => .error .unicodeDecodeError
          else if e = 78 then .error .unicodeDecodeError
          else (fun l => 92 :: e :: l) <$> uescapeGo fuel rest1
  | fuel + 1, b :: rest => (fun l => b :: l) <$> uescapeGo fuel rest

/-- Decoder of the Python `unicode_escape` codec on a byte list.  Each
step of `uescapeGo` consumes at least one byte, so fuel equal to the
length of the input is never exhausted and the fuel-out branch is
unreachable. -/
def uescape (bs : List Nat) : Except PyError (List Nat) := uescapeGo bs.length bs

/-- Python `str.encode("latin1")`: each code point must fit in one byte. -/
def latin1Encode (cps : List Nat) : Except PyError (List Nat) :=
  cps.mapM fun c => if c ≤ 255 then Except.ok c else Except.error PyError.unicodeEncodeError

/-- Is the byte a UTF-8 continuation byte? -/
def isCont (b : Nat) : Bool := 128 ≤ b && b < 192

/-- Python `bytes.decode("utf8", errors="replace")`: decode UTF-8,
replacing each maximal invalid subsequence with U+FFFD the way CPython
does (an invalid start byte costs one replacement character and one byte;
a valid prefix of a multi-byte sequence followed by an invalid or missing
continuation byte costs one replacement character and the prefix). -/
def utf8DecodeReplaceGo : Nat → List Nat → List Nat
  | _, [] => []
  | 0, _ :: _ => []
  | fuel + 1, b :: rest =>
    if b < 128 then b :: utf8DecodeReplaceGo fuel rest
    else if b < 194 then 65533 :: utf8DecodeReplaceGo fuel rest
    else if b < 224 then
      match rest with
      | [] => [65533]
      | b2 :: rest2 =>
        if isCont b2 then ((b - 192) * 64 + (b2 - 128)) :: utf8DecodeReplaceGo fuel rest2
        else 65533 :: utf8DecodeReplaceGo fuel (b2 :: rest2)
    else if b < 240 then
      match rest with
      | [] => [65533]
      | b2 :: rest2 =>
        if (if b = 224 then 160 ≤ b2 && b2 < 192
            else if b = 237 then 128 ≤ b2 && b2 < 160
            else isCont b2) then
          match rest2 with
          | [] => [65533]
          | b3 :: rest3 =>
            if isCont b3 then
              ((b - 224) * 4096 + (b2 - 128) * 64 + (b3 - 128)) :: utf8DecodeReplaceGo fuel rest3
            else 65533 :: utf8DecodeReplaceGo fuel (b3 :: rest3)
        else 65533 :: utf8DecodeReplaceGo fuel (b2 :: rest2)
    else if b < 245 then
      match rest with
      | [] => [65533]
      | b2 :: rest2 =>
        if (if b = 240 then 144 ≤ b2 && b2 < 192
            else if b = 244 then 128 ≤ b2 && b2 < 144
            else isCont b2) then
          match rest2 with
          | [] => [65533]
          | b3 :: rest3 =>
            if isCont b3 then
              match rest3 with
              | [] => [65533]
              | b4 :: rest4 =>
                if isCont b4 then
                  ((b - 240) * 262144 + (b2 - 128) * 4096 + (b3 - 128) * 64 + (b4 - 128))
                    :: utf8DecodeReplaceGo fuel rest4
                else 65533 :: utf8DecodeReplaceGo fuel (b4 :: rest4)
            else 65533 :: utf8DecodeReplaceGo fuel (b3 :: rest3)
        else 65533 :: utf8DecodeReplaceGo fuel (b2 :: rest2)
    else 65533 :: utf8DecodeReplaceGo fuel rest

/-- Python `bytes.decode("utf8", errors="replace")`.  Each step of
`utf8DecodeReplaceGo` consumes at least one byte, so fuel equal to the
length of the input is never exhausted. -/
def utf8DecodeReplace (bs : List Nat) : List Nat :=
  utf8DecodeReplaceGo bs.length bs

/-- Build a string back from code points (all values produced by the
decoder above are valid code points). -/
def cpsToString (cps : List Nat) : String := String.mk (cps.map Char.ofNat)

/-- The `unescape` helper of the source (lines 15 to 22): decode escape
sequences as `unicode_escape` does, then reinterpret the resulting code
points as latin-1 bytes and decode those bytes as UTF-8, replacing invalid
sequences. -/
def unescape (s : String) : Except PyError String := do
  let cps ← uescape (utf8Encode s)
  let bs ← latin1Encode cps
  .ok (cpsToString (utf8DecodeReplace bs))

/-- Worker for `pyDigits`: digits already begun, underscores allowed only
between digits, exactly as Python `int` accepts. -/
def digitsGo (acc : Nat) : List Char → Except PyError Nat
  | [] => .ok acc
  | '_' :: rest =>
    match rest with
    | [] => .error .valueError
    | c :: rest2 =>
      if c.isDigit then digitsGo (acc * 10 + (c.toNat - 48)) rest2
      else .error .valueError
  | c :: rest =>
    if c.isDigit then digitsGo (acc * 10 + (c.toNat - 48)) rest
    else .error .valueError

/-- A nonempty ASCII digit string with optional underscore separators. -/
def pyDigits : List Char → Except PyError Nat
  | [] => .error .valueError
  | c :: rest =>
    if c.isDigit then digitsGo (c.toNat - 48) rest
    else .error .valueError

/-- Python `int(s)` on a string: strip whitespace, optional sign, decimal
digits; otherwise a `ValueError`. -/
def pyInt (s : String) : Except PyError Int :=
  let cs := ((s.data.dropWhile pyIsSpace).reverse.dropWhile pyIsSpace).reverse
  match cs with
  | '+' :: ds => (fun n => (n : Int)) <$> pyDigits ds
  | '-' :: ds => (fun n => -(n : Int)) <$> pyDigits ds
  | ds => (fun n => (n : Int)) <$> pyDigits ds

/-! ## Data model -/

/-- A dynamically typed Python value as it occurs in the record dicts of
the program: a string, a number, or `None`. -/
inductive Value
  | vstr (s : String)
  | vnum (q : ℚ)
  | vnone
deriving DecidableEq

/-- The normalized device record built by `tty2dict` (source lines 25 to
41).  The field types are the shapes every successful extraction
produces: `path` a string (otherwise `os.stat` would have raised),
`ctime` a number, the seven udev properties present-or-`None` strings. -/
structure TTYDict where
  path : String
  ctime : ℚ
  serial : Option String
  driver : Option String
  model : Option String
  model_db : Option String
  vendor : Option String
  vendor_db : Option String
  iface_num : Option String
deriving DecidableEq

/-- The dynamically typed state of one record dict, used to report the
state of the records after printing (the table renderer overwrites the
`ctime` entry of the dict it is handed). -/
structure TTYRecState where
  path : Value
  ctime : Value
  serial : Value
  driver : Value
  model : Value
  model_db : Value
  vendor : Value
  vendor_db : Value
  iface_num : Value
deriving DecidableEq

/-- An optional string as a dynamic value. -/
def optVal : Option String → Value
  | none => Value.vnone
  | some s => Value.vstr s

/-- The dynamic view of a freshly built record. -/
def toValueRec (t : TTYDict) : TTYRecState :=
  { path := Value.vstr t.path
    ctime := Value.vnum t.ctime
    serial := optVal t.serial
    driver := optVal t.driver
    model := optVal t.model
    model_db := optVal t.model_db
    vendor := optVal t.vendor
    vendor_db := optVal t.vendor_db
    iface_num := optVal t.iface_num }

/-- Python dict lookup `rec[key]` on the dynamic record view; `none`
models a `KeyError`. -/
def lookupState (r : TTYRecState) : String → Option Value
  | "path" => some r.path
  | "ctime" => some r.ctime
  | "serial" => some r.serial
  | "driver" => some r.driver
  | "model" => some r.model
  | "model_db" => some r.model_db
  | "vendor" => some r.vendor
  | "vendor_db" => some r.vendor_db
  | "iface_num" => some r.iface_num
  | _ => none

/-- The seven optional string attributes a filter predicate can target
(`generate_filters` builds predicates for exactly these). -/
inductive StrField
  | serial
  | driver
  | model
  | model_db
  | vendor
  | vendor_db
  | iface_num
deriving DecidableEq

/-- Field access `tty[key]` for a filter predicate key. -/
def getStr (t : TTYDict) : StrField → Option String
  | .serial => t.serial
  | .driver => t.driver
  | .model => t.model
  | .model_db => t.model_db
  | .vendor => t.vendor
  | .vendor_db => t.vendor_db
  | .iface_num => t.iface_num

/-- Replace one of the seven optional attributes of a record. -/
def setStr (t : TTYDict) : StrField → Option String → TTYDict
  | .serial, v => { t with serial := v }
  | .driver, v => { t with driver := v }
  | .model, v => { t with model := v }
  | .model_db, v => { t with model_db := v }
  | .vendor, v => { t with vendor := v }
  | .vendor_db, v => { t with vendor_db := v }
  | .iface_num, v => { t with iface_num := v }

/-! ## Attribute extractor (`tty2dict`) -/

/-- A raw udev device record: optional string properties keyed by name,
as the external enumeration service supplies them. -/
abbrev RawDev := List (String × String)

/-- Python `dev.get(key)`. -/
def RawDev.get (d : RawDev) (k : String) : Option String :=
  (d.find? fun p => p.1 == k).map Prod.snd

/-- The `tty2dict` function of the source (lines 25 to 41), with
`os.stat(path).st_ctime` abstracted as the oracle `stat`.  Mirrors the
order of the assignments in the source: a missing `DEVNAME` makes the
`os.stat(None)` call raise a `TypeError`; `unescape` is applied to the
model and vendor encodings unconditionally, so a missing property makes
`bytes(None, "utf8")` raise a `TypeError`; `int` is applied to the
interface number unconditionally, so a missing property makes `int(None)`
raise a `TypeError` and a non-numeric one a `ValueError`. -/
def tty2dict (stat : String → Except PyError ℚ) (dev : RawDev) :
    Except PyError TTYDict :=
  match dev.get "DEVNAME" with
  | none => Except.error PyError.typeError
  | some p =>
    match stat p with
    | Except.error e => Except.error e
    | Except.ok ct =>
      match dev.get "ID_MODEL_ENC" with
      | none => Except.error PyError.typeError
      | some ms =>
        match unescape ms with
        | Except.error e => Except.error e
        | Except.ok modelV =>
          match dev.get "ID_VENDOR_ENC" with
          | none => Except.error PyError.typeError
          | some vs =>
            match unescape vs with
            | Except.error e => Except.error e
            | Except.ok vendorV =>
              match dev.get "ID_USB_INTERFACE_NUM" with
              | none => Except.error PyError.typeError
              | some ifs =>
                match pyInt ifs with
                | Except.error e => Except.error e
                | Except.ok ifaceV =>
                  Except.ok
                    { path := p
                      ctime := ct
                      serial := dev.get "ID_SERIAL_SHORT"
                      driver := dev.get "ID_USB_DRIVER"
                      model := some modelV
                      model_db := dev.get "ID_MODEL_FROM_DATABASE"
                      vendor := some vendorV
                      vendor_db := dev.get "ID_VENDOR_FROM_DATABASE"
                      iface_num := some (toString ifaceV) }

/-- Extraction of every enumerated device, aborting at the first failing
record, exactly as the enumeration loop of `print_ttys` does. -/
def extractAll (stat : String → Except PyError ℚ) (devs : List RawDev) :
    Except PyError (List TTYDict) :=
  devs.mapM (tty2dict stat)

/-! ## Filter engine -/

/-- Semantics of the serial filter pattern compiled at source lines 205
to 206: `re.compile(r"^" + re.escape(s) + r"$").match(t)`.  `re.escape`
strips every regex metacharacter of its special meaning, so the pattern
body matches exactly the literal characters of `s`; `^` is redundant
under `match`, which anchors at the start; and Python `$` matches at the
end of the string or just before a single trailing newline.  The pattern
therefore matches exactly `s` itself and `s` followed by one final
newline. -/
def serial_regex_match (s t : String) : Bool := t == s || t == s ++ "\n"

/-- A compiled filter: the targeted field and the semantics of
`pattern.match` as a predicate on the field value. -/
abbrev FilterPred := StrField × (String → Bool)

/-- The `filters_match` function of the source (lines 44 to 56): false at
the first predicate whose field is `None` or whose pattern fails,
vacuously true for the empty filter list. -/
def filters_match (filters : List FilterPred) (tty : TTYDict) : Bool :=
  match filters with
  | [] => true
  | (key, rgx) :: rest =>
    match getStr tty key with
    | none => false
    | some v => if rgx v then filters_match rest tty else false

/-! ## CLI parsing (`parse_args`) -/

/-- The option values argparse delivers (source lines 80 to 114), with
each default as declared there.  `format` is nonempty whenever argparse
produced it (`nargs` is `+` with default `["table"]`); `exclude_serial`
is `none` exactly when the flag was entirely absent. -/
structure CLIArgs where
  most_recent : Bool := false
  format : List String := ["table"]
  format_sep : String := " "
  serial : Option String := none
  driver : Option String := none
  model : Option String := none
  model_db : Option String := none
  vendor : Option String := none
  vendor_db : Option String := none
  iface_num : Option String := none
  exclude_serial : Option (List String) := none
deriving DecidableEq

/-- The arguments after validation and the environment merge: the
exclusion list is now a plain list. -/
structure ParsedArgs where
  most_recent : Bool
  format : List String
  format_sep : String
  serial : Option String
  driver : Option String
  model : Option String
  model_db : Option String
  vendor : Option String
  vendor_db : Option String
  iface_num : Option String
  exclude_serial : List String
deriving DecidableEq

/-- The combinable format names (source lines 64 to 74; a Python set used
only for membership, the list order is immaterial). -/
def formats_combinable : List String :=
  ["path", "serial", "vendor", "vendor_db", "model", "model_db", "driver",
   "ctime", "iface_num"]

/-- The uncombinable format names (source lines 75 to 78). -/
def formats_uncombinable : List String := ["table", "json"]

/-- All supported format names. -/
def supported_formats : List String :=
  formats_combinable ++ formats_uncombinable

/-- Worker for the multi-format validation loop (source lines 120 to
126): the first name that is not combinable aborts with the message
`sys.exit` receives. -/
def validateLoop : List String → Option String
  | [] => none
  | f :: rest =>
    if f ∈ formats_combinable then validateLoop rest
    else if f ∈ formats_uncombinable then
      some ("Format \"" ++ f ++ "\" cannot be combined with other formats")
    else some ("Format \"" ++ f ++ "\" not supported")

/-- The format validation of `parse_args` (source lines 116 to 126):
`some msg` is the argument `sys.exit` is called with. -/
def validate_format (fmts : List String) : Option String :=
  match fmts with
  | [f] =>
    if f ∈ supported_formats then none
    else some ("Format \"" ++ f ++ "\" not supported")
  | other => validateLoop other

/-- The `parse_args` function of the source (lines 59 to 134) after
argparse has produced `args`: validate the format combination
(`Except.error msg` models `sys.exit(msg)`, which prints `msg` to
standard error and terminates with status 1), then resolve the exclusion
list: an absent `--exclude-serial` falls back to the whitespace-split
`EXCLUDE_TTY_SERIAL` environment value, or to the empty list. -/
def parse_args (env : Option String) (args : CLIArgs) :
    Except String ParsedArgs :=
  match validate_format args.format with
  | some msg => Except.error msg
  | none =>
    Except.ok
      { most_recent := args.most_recent
        format := args.format
        format_sep := args.format_sep
        serial := args.serial
        driver := args.driver
        model := args.model
        model_db := args.model_db
        vendor := args.vendor
        vendor_db := args.vendor_db
        iface_num := args.iface_num
        exclude_serial :=
          match args.exclude_serial with
          | some l => l
          | none =>
            match env with
            | some s => pySplit s
            | none => [] }

/-- The `generate_filters` function of the source (lines 198 to 226).
The user-supplied regexes for the six non-serial filters are matched
through the oracle `rmatch pattern value`, modelling
`re.compile(pattern).match(value)`; the serial filter is the
program-built exact pattern with its concrete semantics. -/
def generate_filters (rmatch : String → String → Bool)
    (args : ParsedArgs) : List FilterPred :=
  (match args.serial with
   | some s => [(StrField.serial, serial_regex_match s)]
   | none => []) ++
  (match args.driver with
   | some p => [(StrField.driver, rmatch p)]
   | none => []) ++
  (match args.model with
   | some p => [(StrField.model, rmatch p)]
   | none => []) ++
  (match args.model_db with
   | some p => [(StrField.model_db, rmatch p)]
   | none => []) ++
  (match args.vendor with
   | some p => [(StrField.vendor, rmatch p)]
   | none => []) ++
  (match args.vendor_db with
   | some p => [(StrField.vendor_db, rmatch p)]
   | none => []) ++
  (match args.iface_num with
   | some p => [(StrField.iface_num, rmatch p)]
   | none => [])

/-! ## Formatter -/

/-- Two decimal digits with a leading zero, as `strftime` pads. -/
def two (n : Nat) : String := if n < 10 then "0" ++ toString n else toString n

/-- The table display time `time.strftime("%H:%M:%S",
time.localtime(t))`: the wall-clock time of day of the timestamp.  The
timezone of the host is modelled as UTC (a fixed offset would only shift
the digits; no claim depends on the zone), and `localtime` floors the
float to whole seconds. -/
def hms (q : ℚ) : String :=
  let d : Nat := (q.floor % 86400).toNat
  two (d / 3600) ++ ":" ++ two (d % 3600 / 60) ++ ":" ++ two (d % 60)

/-- Python decimal digit characters of a natural number. -/
def natDigits (n : Nat) : String := toString n

/-- Display of a float value, Python `repr`/`str`.  Timestamps
originating from `os.stat` are handled exactly when integral (Python
prints `100.0` for the float `100.0`); a non-integral rational is shown
as an exact fraction, a deviation from the shortest-decimal form of
`repr` that no theorem in this development depends on (the value is never
inspected: the table mode converts `ctime` to `hms` form first, and the
combinable mode raises before displaying a number). -/
def render_float (q : ℚ) : String :=
  if q.den = 1 then toString q.num ++ ".0" else toString q.num ++ "/" ++ toString q.den

/-- Python `str(x)` on a record value (`str(None)` is the text `None`). -/
def strOfValue : Value → String
  | .vstr s => s
  | .vnum q => render_float q
  | .vnone => "None"

/-- Python `len(x)` on a record value: only strings have a length; on
`None` or a float it raises a `TypeError`. -/
def pyLenValue : Value → Except PyError Nat
  | .vstr s => Except.ok s.length
  | _ => Except.error PyError.typeError

/-- A hexadecimal digit character, lowercase as the Python `json` module
emits. -/
def hexDigit (n : Nat) : Char :=
  if n < 10 then Char.ofNat (48 + n) else Char.ofNat (87 + n)

/-- Four lowercase hexadecimal digits. -/
def hex4 (n : Nat) : String :=
  String.mk [hexDigit (n / 4096 % 16), hexDigit (n / 256 % 16),
             hexDigit (n / 16 % 16), hexDigit (n % 16)]

/-- One character of a JSON string literal as `json.dumps` emits it with
the default `ensure_ascii=True`: quote and backslash escaped, the short
control escapes, `\uXXXX` for other control characters and for every
non-ASCII character, surrogate pairs beyond the basic plane. -/
def jsonEscapeChar (c : Char) : String :=
  if c = '"' then "\\\""
  else if c = '\\' then "\\\\"
  else if c = '\n' then "\\n"
  else if c = '\x0d' then "\\r"
  else if c = '\t' then "\\t"
  else if c = '\x08' then "\\b"
  else if c = '\x0c' then "\\f"
  else if c.toNat < 32 then "\\u" ++ hex4 c.toNat
  else if c.toNat < 127 then String.mk [c]
  else if c.toNat < 65536 then "\\u" ++ hex4 c.toNat
  else
    let n := c.toNat - 65536
    "\\u" ++ hex4 (55296 + n / 1024) ++ "\\u" ++ hex4 (56320 + n % 1024)

/-- Python `json.dumps` of a single string. -/
def jsonEscapeString (s : String) : String :=
  "\"" ++ String.join (s.data.map jsonEscapeChar) ++ "\""

/-- JSON form of one record value. -/
def json_value : Value → String
  | .vstr s => jsonEscapeString s
  | .vnum q => render_float q
  | .vnone => "null"

/-- The entries of the record dict in insertion order (the order of the
assignments in `tty2dict`). -/
def record_entries (t : TTYDict) : List (String × Value) :=
  [("path", Value.vstr t.path), ("ctime", Value.vnum t.ctime),
   ("serial", optVal t.serial), ("driver", optVal t.driver),
   ("model", optVal t.model), ("model_db", optVal t.model_db),
   ("vendor", optVal t.vendor), ("vendor_db", optVal t.vendor_db),
   ("iface_num", optVal t.iface_num)]

/-- Python `json.dumps(ttys, indent=2)`: the records as a pretty-printed
JSON array with two-space indentation. -/
def json_dumps_records : List TTYDict → String
  | [] => "[]"
  | ts@(_ :: _) =>
    "[\n" ++
    String.intercalate ",\n"
      (ts.map fun t =>
        "  \x7b\n" ++
        String.intercalate ",\n"
          ((record_entries t).map fun e =>
            "    " ++ jsonEscapeString e.1 ++ ": " ++ json_value e.2) ++
        "\n  \x7d") ++
    "\n]"

/-- One width update of the column sizing pass of `print_table` (source
lines 146 to 149).  Note the asymmetry of the source: the comparison uses
`len(str(item[header]))` but the assignment uses `len(item[header])`,
which raises a `TypeError` when the cell is `None` (reachable only if the
`None` display were wider than the column, which the fixed headers
preclude). -/
def lenStep (item : TTYRecState) (hd : String) (len : Nat) :
    Except PyError Nat :=
  match lookupState item hd with
  | none => Except.error PyError.keyError
  | some v =>
    if (strOfValue v).length > len then pyLenValue v else Except.ok len

/-- Width updates of one record across the header columns (zipped like
the indexed loop of the source, whose index ranges over the headers). -/
def lensForItem (item : TTYRecState) :
    List String → List Nat → Except PyError (List Nat)
  | [], _ => Except.ok []
  | _ :: _, [] => Except.ok []
  | hd :: hs, len :: lens => do
    let len2 ← lenStep item hd len
    let lens2 ← lensForItem item hs lens
    Except.ok (len2 :: lens2)

/-- Worker of the column sizing pass: widen the running widths with every
record in turn. -/
def computeLensGo (headers : List String) :
    List TTYRecState → List Nat → Except PyError (List Nat)
  | [], lens => Except.ok lens
  | item :: data, lens => do
    let lens2 ← lensForItem item headers lens
    computeLensGo headers data lens2

/-- The full column sizing pass: start from the header lengths, widen
with every record. -/
def computeLens (data : List TTYRecState) (headers : List String) :
    Except PyError (List Nat) :=
  computeLensGo headers data (headers.map String.length)

/-- Python dict access raising `KeyError` on an unknown key. -/
def getItem (item : TTYRecState) (hd : String) : Except PyError Value :=
  match lookupState item hd with
  | none => Except.error PyError.keyError
  | some v => Except.ok v

/-- The trailing cells of one data row (source lines 160 to 161): for
each remaining header, ` | ` and the padded `str` of the cell. -/
def cellsFor (item : TTYRecState) :
    List (String × Nat) → Except PyError String
  | [] => Except.ok ""
  | p :: rest => do
    let v ← getItem item p.1
    let more ← cellsFor item rest
    Except.ok (" | " ++ padTo (strOfValue v) p.2 ++ more)

/-- One data row of the table (source lines 158 to 161): a newline, the
first cell, then the remaining cells. -/
def rowForItem (item : TTYRecState) (h0 : String) (l0 : Nat)
    (hl : List (String × Nat)) : Except PyError String := do
  let v0 ← getItem item h0
  let cells ← cellsFor item hl
  Except.ok ("\n" ++ padTo (strOfValue v0) l0 ++ cells)

/-- All data rows of the table. -/
def rowsFor (h0 : String) (l0 : Nat) (hl : List (String × Nat)) :
    List TTYRecState → Except PyError String
  | [] => Except.ok ""
  | item :: data => do
    let row ← rowForItem item h0 l0 hl
    let rest ← rowsFor h0 l0 hl data
    Except.ok (row ++ rest)

/-- The `print_table` function of the source (lines 137 to 164),
returning the text written to standard output.  Indexing `headers[0]`
with no headers, or `lengths[i]` beyond the computed widths, raises an
`IndexError` (unreachable for the fixed header list of the caller). -/
def print_table (data : List TTYRecState) (headers : List String) :
    Except PyError String := do
  let lens ← computeLens data headers
  match headers, lens with
  | [], _ => Except.error PyError.indexError
  | _ :: _, [] => Except.error PyError.indexError
  | h0 :: hrest, l0 :: lrest =>
    if lrest.length < hrest.length then Except.error PyError.indexError
    else do
      let hl := hrest.zip lrest
      let top := padTo h0 l0 ++
        String.join (hl.map fun p => " | " ++ padTo p.1 p.2)
      let sepRow := "\n" ++ dashes l0 ++
        String.join (hl.map fun p => "-|-" ++ dashes p.2)
      let rows ← rowsFor h0 l0 hl data
      Except.ok (top ++ sepRow ++ rows ++ "\n")

/-- The fixed header list of the table mode (source lines 180 to 181). -/
def headers_std : List String :=
  ["path", "driver", "vendor", "model", "model_db", "serial", "ctime",
   "iface_num"]

/-- The in-place conversion the table mode performs on each record dict
(source lines 177 to 179): the `ctime` entry is overwritten with the
display string; every other entry keeps its construction-time value. -/
def table_convert (t : TTYDict) : TTYRecState :=
  { toValueRec t with ctime := Value.vstr (hms t.ctime) }

/-- One item of a combinable-format line (source lines 188 to 193): fetch
the field, and quote it JSON-style when the separator occurs in it.
`item.rfind` on a value that is not a string (`None`, or the float
`ctime`) raises an `AttributeError`. -/
def fmt_item (sep : String) (v : Value) : Except PyError String :=
  match v with
  | .vstr s =>
    Except.ok (if containsStr s sep then jsonEscapeString s else s)
  | _ => Except.error PyError.attributeError

/-- The items of one combinable-format line, each preceded by the
separator (the loop body of source lines 187 to 194 builds exactly this
string, in the same left-to-right order of field fetches and failures). -/
def line_items (sep : String) (r : TTYRecState) :
    List String → Except PyError String
  | [] => Except.ok ""
  | f :: fs =>
    match lookupState r f with
    | none => Except.error PyError.keyError
    | some v => do
      let item ← fmt_item sep v
      let rest ← line_items sep r fs
      Except.ok (sep ++ item ++ rest)

/-- One line of combinable-format output for one record (source lines 185
to 195): concatenate `sep + item` for each requested field, then slice
off the leading separator. -/
def format_line (sep : String) (fmts : List String) (r : TTYRecState) :
    Except PyError String := do
  let line ← line_items sep r fmts
  Except.ok (strDrop line sep.length)

/-- The whole combinable-format output: one printed line per record, in
order, aborting at the first record whose line raises. -/
def format_lines (sep : String) (fmts : List String) :
    List TTYDict → Except PyError String
  | [] => Except.ok ""
  | t :: ts => do
    let line ← format_line sep fmts (toValueRec t)
    let rest ← format_lines sep fmts ts
    Except.ok (line ++ "\n" ++ rest)

/-- The `print_results` function of the source (lines 167 to 195),
modelled with explicit state: the result carries the text written to
standard output and the post-call state of every record dict.  An
`Except.error` models an uncaught exception escaping `print_results`
(traceback on standard error, process status 1); text that may have been
flushed before the exception is not tracked, and no claim depends on
it. -/
def print_results (p : ParsedArgs) (ttys : List TTYDict) :
    Except PyError (String × List TTYRecState) :=
  if p.format = ["json"] then
    Except.ok (json_dumps_records ttys ++ "\n", ttys.map toValueRec)
  else if p.format = ["table"] then
    let post := ttys.map table_convert
    match print_table post headers_std with
    | Except.error e => Except.error e
    | Except.ok out => Except.ok (out, post)
  else
    match format_lines p.format_sep p.format ttys with
    | Except.error e => Except.error e
    | Except.ok out => Except.ok (out, ttys.map toValueRec)

/-! ## Selector and pipeline -/

/-- One step of the most-recent scan, the loop body of source lines 245
to 247: replace the running best only on a strictly greater `ctime`. -/
def mrStep (best x : TTYDict) : TTYDict :=
  if best.ctime < x.ctime then x else best

/-- The most-recent reduction of `print_ttys` (source lines 242 to 250):
start from the first record, scan the whole list left to right keeping
the record with the strictly greater `ctime`, so the earliest-seen record
wins ties. -/
def select_most_recent : List TTYDict → List TTYDict
  | [] => []
  | t :: rest => [(t :: rest).foldl mrStep t]

/-- The selection step guarded by the `--most-recent` flag. -/
def apply_most_recent (flag : Bool) (ttys : List TTYDict) : List TTYDict :=
  if flag then select_most_recent ttys else ttys

/-- The per-record acceptance test of the enumeration loop (source line
239): the serial is not in the exclusion list (a `None` serial is never
in a list of strings) and all filters match. -/
def keepRecord (excl : List String) (filters : List FilterPred)
    (t : TTYDict) : Bool :=
  (match t.serial with
   | none => true
   | some s => !(excl.contains s)) && filters_match filters t

/-- The records surviving exclusion and filtering, in enumeration
order. -/
def surviving (excl : List String) (filters : List FilterPred)
    (ttys : List TTYDict) : List TTYDict :=
  ttys.filter (keepRecord excl filters)

/-- The record set `print_results` finally receives: exclusion and
filters applied, then the optional most-recent reduction. -/
def finalSet (rmatch : String → String → Bool) (parsed : ParsedArgs)
    (ttys : List TTYDict) : List TTYDict :=
  apply_most_recent parsed.most_recent
    (surviving parsed.exclude_serial (generate_filters rmatch parsed) ttys)

/-- Observable outcome of one run of the program. -/
inductive Outcome
  | success (stdout : String)
  | exitNoMatch
  | exitMsg (msg : String)
  | exn (e : PyError)
deriving DecidableEq

/-- The process exit status of an outcome: 0 on success; `sys.exit(1)` on
the empty result; `sys.exit(msg)` prints `msg` on standard error and
exits with status 1; an uncaught exception also terminates the
interpreter with status 1. -/
def exitCode : Outcome → Nat
  | .success _ => 0
  | .exitNoMatch => 1
  | .exitMsg _ => 1
  | .exn _ => 1

/-- The text an outcome writes to standard output. -/
def stdoutOf : Outcome → String
  | .success s => s
  | _ => ""

/-- The `print_ttys` driver of the source (lines 229 to 255): parse and
validate the arguments, enumerate and extract the devices (the
enumeration result is the parameter `devs`), filter, optionally select
the most recent, exit with status 1 on an empty result, otherwise
print. -/
def print_ttys (rmatch : String → String → Bool) (env : Option String)
    (argv : CLIArgs) (stat : String → Except PyError ℚ)
    (devs : List RawDev) : Outcome :=
  match parse_args env argv with
  | Except.error msg => Outcome.exitMsg msg
  | Except.ok parsed =>
    match extractAll stat devs with
    | Except.error e => Outcome.exn e
    | Except.ok ttys =>
      let ttys2 := finalSet rmatch parsed ttys
      if ttys2.isEmpty then Outcome.exitNoMatch
      else
        match print_results parsed ttys2 with
        | Except.error e => Outcome.exn e
        | Except.ok (out, _) => Outcome.success out

/-! ## Concrete fixtures -/

/-- A regex-match oracle for runs that install no user-supplied regex
filter (never consulted in those runs). -/
def rm0 : String → String → Bool := fun _ _ => false

/-- A stat oracle reporting creation time 100 for every path. -/
def stat100 : String → Except PyError ℚ := fun _ => Except.ok 100

/-- A raw device record with every property the extractor touches. -/
def devFull : RawDev :=
  [("DEVNAME", "/dev/ttyACM0"), ("ID_SERIAL_SHORT", "XYZ"),
   ("ID_USB_DRIVER", "cdc_acm"), ("ID_MODEL_ENC", "BoardX"),
   ("ID_MODEL_FROM_DATABASE", "BoardDB"), ("ID_VENDOR_ENC", "VendY"),
   ("ID_VENDOR_FROM_DATABASE", "VendDB"), ("ID_USB_INTERFACE_NUM", "00")]

/-- The same raw device without the encoded model property. -/
def devNoModel : RawDev :=
  [("DEVNAME", "/dev/ttyACM0"), ("ID_SERIAL_SHORT", "XYZ"),
   ("ID_USB_DRIVER", "cdc_acm"),
   ("ID_MODEL_FROM_DATABASE", "BoardDB"), ("ID_VENDOR_ENC", "VendY"),
   ("ID_VENDOR_FROM_DATABASE", "VendDB"), ("ID_USB_INTERFACE_NUM", "00")]

/-- The same raw device without the short serial property. -/
def devNoSerial : RawDev :=
  [("DEVNAME", "/dev/ttyACM0"),
   ("ID_USB_DRIVER", "cdc_acm"), ("ID_MODEL_ENC", "BoardX"),
   ("ID_MODEL_FROM_DATABASE", "BoardDB"), ("ID_VENDOR_ENC", "VendY"),
   ("ID_VENDOR_FROM_DATABASE", "VendDB"), ("ID_USB_INTERFACE_NUM", "00")]

/-- The record `tty2dict stat100 devFull` produces. -/
def rec100 : TTYDict :=
  { path := "/dev/ttyACM0", ctime := 100, serial := some "XYZ",
    driver := some "cdc_acm", model := some "BoardX",
    model_db := some "BoardDB", vendor := some "VendY",
    vendor_db := some "VendDB", iface_num := some "0" }

/-- A record whose serial is absent. -/
def recNoSerial : TTYDict := { rec100 with serial := none }

/-- A record whose serial carries a trailing newline. -/
def recNl : TTYDict := { rec100 with serial := some "A\n" }

/-- A record whose vendor string contains the default separator. -/
def recVsep : TTYDict := { rec100 with vendor := some "Ven dor" }

/-- The scenario records with serials AAA and BBB and ctimes 100 and
200. -/
def recAAA : TTYDict := { rec100 with serial := some "AAA", ctime := 100 }

/-- See `recAAA`. -/
def recBBB : TTYDict := { rec100 with serial := some "BBB", ctime := 200 }

/-- Parsed arguments of a plain `ttys.py` run: table format, defaults
everywhere. -/
def parsedTable : ParsedArgs :=
  { most_recent := false, format := ["table"], format_sep := " ",
    serial := none, driver := none, model := none, model_db := none,
    vendor := none, vendor_db := none, iface_num := none,
    exclude_serial := [] }

/-- Parsed arguments of `--format path serial --format-sep ,`. -/
def parsedPS : ParsedArgs :=
  { parsedTable with format := ["path", "serial"], format_sep := "," }

/-- Parsed arguments of `--format ctime`. -/
def parsedCtime : ParsedArgs := { parsedTable with format := ["ctime"] }

/-- Parsed arguments of `--format path vendor` with the default
separator. -/
def parsedPV : ParsedArgs := { parsedTable with format := ["path", "vendor"] }

/-- Parsed arguments of `--format serial`. -/
def parsedSerialFmt : ParsedArgs := { parsedTable with format := ["serial"] }

/-- Parsed arguments of `--serial A` in table format. -/
def parsedSerialA : ParsedArgs := { parsedTable with serial := some "A" }

/-- Command line `--format table json`. -/
def argvTJ : CLIArgs := { format := ["table", "json"] }

/-- Command line `--format serial`. -/
def argvSerialFmt : CLIArgs := { format := ["serial"] }

/-- Command line `--serial ZZZ` (table format). -/
def argvZZZ : CLIArgs := { serial := some "ZZZ" }

/-- Command line `--exclude-serial` with zero values. -/
def argvC9 : CLIArgs := { exclude_serial := some ([] : List String) }

/-- The parse of `argvZZZ` with no environment variable. -/
def parsedZZZ : ParsedArgs := { parsedTable with serial := some "ZZZ" }

/-- The parse of `argvC9`. -/
def parsed9 : ParsedArgs := parsedTable

/-- A single concrete filter list for witnesses: an exact serial
check. -/
def F0 : List FilterPred := [(StrField.serial, fun v => v == "XYZ")]

/-- The format configurations the claims call invalid: several formats
of which one is `table` or `json`, or any unrecognized format name. -/
def bad_format_config (fmts : List String) : Prop :=
  (1 < fmts.length ∧ ∃ f ∈ fmts, f ∈ formats_uncombinable)
  ∨ ∃ f ∈ fmts, f ∉ supported_formats

instance (fmts : List String) : Decidable (bad_format_config fmts) := by
  unfold bad_format_config
  infer_instance

/-- A dynamic value that is a string or `None` (not a number). -/
def isStrOrNone : Value → Prop
  | .vnum _ => False
  | _ => True

/-- Every entry of the record state is a string or `None`; this is the
shape of every record the table mode hands to `print_table`. -/
def stateOk (r : TTYRecState) : Prop :=
  isStrOrNone r.path ∧ isStrOrNone r.ctime ∧ isStrOrNone r.serial
  ∧ isStrOrNone r.driver ∧ isStrOrNone r.model ∧ isStrOrNone r.model_db
  ∧ isStrOrNone r.vendor ∧ isStrOrNone r.vendor_db ∧ isStrOrNone r.iface_num

end Ttys

namespace Ttys

/-! ## Helper lemmas about the filter engine -/

/-- The function `filters_match` is the conjunction of its predicates:
true exactly when every predicate finds its field present and
matching. -/
theorem filters_match_iff (F : List FilterPred) (R : TTYDict) :
    filters_match F R = true ↔
      ∀ kp ∈ F, ∃ v, getStr R kp.1 = some v ∧ kp.2 v = true := by
  induction F with
  | nil => simp [filters_match]
  | cons kp rest ih =>
    obtain ⟨key, rgx⟩ := kp
    constructor
    · intro h
      cases hv : getStr R key with
      | none => simp [filters_match, hv] at h
      | some v =>
        by_cases hr : rgx v = true
        · simp [filters_match, hv, hr] at h
          intro kp2 hkp2
          rcases List.mem_cons.mp hkp2 with heq | hmem
          · exact heq ▸ ⟨v, hv, hr⟩
          · exact (ih.mp h) kp2 hmem
        · simp [filters_match, hv, hr] at h
    · intro h
      obtain ⟨v, hv, hr⟩ := h (key, rgx) (List.mem_cons_self _ _)
      simp only at hv hr
      simp [filters_match, hv, hr]
      exact ih.mpr fun kp2 hkp2 => h kp2 (List.mem_cons_of_mem _ hkp2)

/-- Nulling a field is visible to `getStr`. -/
theorem getStr_setStr_none (R : TTYDict) (f : StrField) :
    getStr (setStr R f none) f = none := by
  cases f <;> rfl

/-! ## C6: the serial filter -/

/-- C6 counterexample.  The claim states that the compiled serial
predicate matches a record exactly when the record serial equals the
filter value as a literal string.  With filter value `A`, the record
whose serial is `A` followed by a newline also matches (Python `$`
matches just before a trailing newline), refuting the stated
equivalence. -/
theorem C6_counterexample :
    filters_match (generate_filters rm0 parsedSerialA) recNl = true
    ∧ recNl.serial ≠ some "A" := by
  exact ⟨by decide, by decide⟩

/-- C6 (amended): the serial predicate is a literal match up to one
trailing newline.  For every filter value `s` (metacharacters included,
since `re.escape` strips them of special meaning) and record `R`, the
compiled serial filter matches `R` exactly when the serial is present and
equal to the literal string `s`, or to `s` followed by a single final
newline (which Python `$` also accepts). -/
theorem C6_serial_exact (s : String) (R : TTYDict) :
    filters_match [(StrField.serial, serial_regex_match s)] R = true ↔
      ∃ t, R.serial = some t ∧ (t = s ∨ t = s ++ "\n") := by
  rw [filters_match_iff]
  constructor
  · intro h
    obtain ⟨v, hv, hr⟩ :=
      h (StrField.serial, serial_regex_match s) (List.mem_cons_self _ _)
    simp only [getStr] at hv
    refine ⟨v, hv, ?_⟩
    simpa [serial_regex_match] using hr
  · rintro ⟨t, ht, hor⟩ kp hkp
    rcases List.mem_singleton.mp hkp with rfl
    refine ⟨t, ht, ?_⟩
    simp only [serial_regex_match, Bool.or_eq_true, beq_iff_eq]
    exact hor

/-! ## C7: conjunction semantics of the filter set -/

/-- C7: a record matches a filter set exactly when every predicate finds
its field present and matching (vacuously true for the empty set), and
nulling any field referenced by a predicate makes the match fail. -/
theorem C7_filterset_semantics (F : List FilterPred) (R : TTYDict) :
    (filters_match F R = true ↔
      ∀ kp ∈ F, ∃ v, getStr R kp.1 = some v ∧ kp.2 v = true)
    ∧ (filters_match F R = true →
        ∀ kp ∈ F, filters_match F (setStr R kp.1 none) = false) := by
  refine ⟨filters_match_iff F R, ?_⟩
  intro _ kp hkp
  cases hb : filters_match F (setStr R kp.1 none) with
  | false => rfl
  | true =>
    obtain ⟨v, hv, _⟩ := (filters_match_iff _ _).mp hb kp hkp
    rw [getStr_setStr_none] at hv
    exact absurd hv (by simp)

/-- C7 witness: the characterization applied to a concrete one-element
filter set and a concrete matching record. -/
theorem C7_witness :
    filters_match F0 rec100 = true
    ∧ filters_match F0 (setStr rec100 StrField.serial none) = false := by
  have h := C7_filterset_semantics F0 rec100
  have hm : filters_match F0 rec100 = true := by decide
  refine ⟨hm, ?_⟩
  have := h.2 hm (StrField.serial, fun v => v == "XYZ")
    (by unfold F0; exact List.mem_cons_self _ _)
  exact this

/-! ## C8: most-recent selection -/

/-- Decomposition of the most-recent scan: the scanned elements split
around the result, everything seen before it is strictly older,
everything after it is no newer.  This pins the result to the leftmost
maximum, which is what the strict comparison of `mrStep` produces. -/
theorem mrFold_spec (l : List TTYDict) (b : TTYDict) :
    ∃ l1 l2, b :: l = l1 ++ (l.foldl mrStep b) :: l2
      ∧ (∀ x ∈ l1, x.ctime < (l.foldl mrStep b).ctime)
      ∧ (∀ x ∈ l2, x.ctime ≤ (l.foldl mrStep b).ctime) := by
  induction l generalizing b with
  | nil => exact ⟨[], [], rfl, by simp, by simp⟩
  | cons x xs ih =>
    have hfold : (x :: xs).foldl mrStep b = xs.foldl mrStep (mrStep b x) := rfl
    by_cases h : b.ctime < x.ctime
    · have hs : mrStep b x = x := if_pos h
      obtain ⟨l1, l2, hd, hlt, hle⟩ := ih x
      have hbr : b.ctime < (xs.foldl mrStep x).ctime := by
        cases l1 with
        | nil =>
          injection hd with h1 _
          exact h1 ▸ h
        | cons y l1' =>
          injection hd with h1 _
          exact lt_trans h (h1 ▸ hlt y (List.mem_cons_self _ _))
      refine ⟨b :: l1, l2, ?_, ?_, ?_⟩
      · rw [hfold, hs, List.cons_append, ← hd]
      · intro z hz
        rcases List.mem_cons.mp hz with rfl | hz2
        · rw [hfold, hs]; exact hbr
        · rw [hfold, hs]; exact hlt z hz2
      · intro z hz
        rw [hfold, hs]; exact hle z hz
    · have hs : mrStep b x = b := if_neg h
      have hxb : x.ctime ≤ b.ctime := le_of_not_lt h
      obtain ⟨l1, l2, hd, hlt, hle⟩ := ih b
      cases l1 with
      | nil =>
        injection hd with h1 h2
        refine ⟨[], x :: xs, ?_, by simp, ?_⟩
        · rw [hfold, hs, List.nil_append, ← h1]
        · intro z hz
          rcases List.mem_cons.mp hz with rfl | hz2
          · rw [hfold, hs, ← h1]; exact hxb
          · rw [hfold, hs]; exact hle z (h2 ▸ hz2)
      | cons y l1' =>
        injection hd with h1 h2
        have hbfold : b.ctime < (xs.foldl mrStep b).ctime :=
          h1 ▸ hlt y (List.mem_cons_self _ _)
        refine ⟨b :: x :: l1', l2, ?_, ?_, ?_⟩
        · rw [hfold, hs]; exact congrArg (fun l => b :: x :: l) h2
        · intro z hz
          rw [hfold, hs]
          rcases List.mem_cons.mp hz with rfl | hz2
          · exact hbfold
          · rcases List.mem_cons.mp hz2 with rfl | hz3
            · exact lt_of_le_of_lt hxb hbfold
            · exact hlt z (h1 ▸ List.mem_cons_of_mem _ hz3)
        · intro z hz
          rw [hfold, hs]; exact hle z hz

/-- C8: with the flag unset the selection is the identity; an empty list
stays empty; and with the flag set a nonempty list reduces to the single
record of maximum `ctime`, the earliest-seen one on ties (everything to
its left in the original order is strictly older). -/
theorem C8_most_recent (flag : Bool) (ttys : List TTYDict) :
    (flag = false → apply_most_recent flag ttys = ttys)
    ∧ (ttys = [] → apply_most_recent flag ttys = [])
    ∧ (flag = true → ttys ≠ [] →
        ∃ r l1 l2, apply_most_recent flag ttys = [r]
          ∧ ttys = l1 ++ r :: l2
          ∧ (∀ x ∈ l1, x.ctime < r.ctime)
          ∧ (∀ x ∈ ttys, x.ctime ≤ r.ctime)) := by
  refine ⟨fun hf => by rw [hf]; rfl, fun ht => by subst ht; cases flag <;> rfl, ?_⟩
  intro hf hne
  subst hf
  cases ttys with
  | nil => exact absurd rfl hne
  | cons t rest =>
    have hstep : mrStep t t = t := if_neg (lt_irrefl _)
    have hfold : (t :: rest).foldl mrStep t = rest.foldl mrStep t := by
      rw [List.foldl_cons, hstep]
    obtain ⟨l1, l2, hd, hlt, hle⟩ := mrFold_spec rest t
    refine ⟨rest.foldl mrStep t, l1, l2, ?_, hd, hlt, ?_⟩
    · show select_most_recent (t :: rest) = _
      rw [select_most_recent, hfold]
    · intro x hx
      rw [hd] at hx
      rcases List.mem_append.mp hx with h1 | h2
      · exact le_of_lt (hlt x h1)
      · rcases List.mem_cons.mp h2 with rfl | h3
        · exact le_refl _
        · exact hle x h3

/-- C8 witness: the selection applied to the records with serials AAA and
BBB and ctimes 100 and 200 keeps only the BBB record, and the flag-unset
selection is the identity there. -/
theorem C8_witness :
    (∃ r l1 l2, apply_most_recent true [recAAA, recBBB] = [r]
      ∧ [recAAA, recBBB] = l1 ++ r :: l2
      ∧ (∀ x ∈ l1, x.ctime < r.ctime)
      ∧ (∀ x ∈ [recAAA, recBBB], x.ctime ≤ r.ctime))
    ∧ apply_most_recent true [recAAA, recBBB] = [recBBB]
    ∧ apply_most_recent false [recAAA, recBBB] = [recAAA, recBBB] := by
  refine ⟨(C8_most_recent true [recAAA, recBBB]).2.2 rfl (by simp), by decide, ?_⟩
  exact (C8_most_recent false [recAAA, recBBB]).1 rfl

/-! ## C9: the exclusion list tri-state -/

/-- C9: when `--exclude-serial` is given its values are the exclusion
list; when it is given with zero values the exclusion list is empty, no
matter what the environment holds; only when the flag is entirely absent
does the whitespace-split `EXCLUDE_TTY_SERIAL` value apply, empty if
unset. -/
theorem C9_exclusion_tristate (env : Option String) (argv : CLIArgs)
    (parsed : ParsedArgs) (hp : parse_args env argv = Except.ok parsed) :
    (∀ l, argv.exclude_serial = some l → parsed.exclude_serial = l)
    ∧ (argv.exclude_serial = some [] → parsed.exclude_serial = [])
    ∧ (argv.exclude_serial = none →
        parsed.exclude_serial =
          match env with
          | some s => pySplit s
          | none => []) := by
  unfold parse_args at hp
  cases hv : validate_format argv.format with
  | some msg => rw [hv] at hp; exact absurd hp (by simp)
  | none =>
    rw [hv] at hp
    injection hp with hp2
    subst hp2
    refine ⟨fun l hl => by simp [hl], fun hl => by simp [hl], fun hl => ?_⟩
    cases env <;> simp [hl]

/-- C9 witness: an explicitly empty `--exclude-serial` wins against a
populated `EXCLUDE_TTY_SERIAL` environment value. -/
theorem C9_witness :
    parse_args (some "AAA BBB") argvC9 = Except.ok parsed9
    ∧ parsed9.exclude_serial = [] := by
  have hp : parse_args (some "AAA BBB") argvC9 = Except.ok parsed9 := by decide
  exact ⟨hp, (C9_exclusion_tristate (some "AAA BBB") argvC9 parsed9 hp).2.1 rfl⟩

/-! ## C4: format validation -/

/-- An uncombinable format name is not a combinable one. -/
theorem uncombinable_not_combinable (g : String)
    (h : g ∈ formats_uncombinable) : g ∉ formats_combinable := by
  simp only [formats_uncombinable, List.mem_cons, List.not_mem_nil, or_false] at h
  rcases h with rfl | rfl <;> decide

/-- The multi-format validation loop rejects every list containing a
non-combinable name. -/
theorem validateLoop_fail (l : List String)
    (h : ∃ f ∈ l, f ∉ formats_combinable) :
    ∃ msg, validateLoop l = some msg := by
  induction l with
  | nil => simp at h
  | cons f rest ih =>
    by_cases hf : f ∈ formats_combinable
    · obtain ⟨g, hg, hgc⟩ := h
      rcases List.mem_cons.mp hg with rfl | hgr
      · exact absurd hf hgc
      · obtain ⟨msg, hm⟩ := ih ⟨g, hgr, hgc⟩
        exact ⟨msg, by rw [validateLoop, if_pos hf]; exact hm⟩
    · by_cases hu : f ∈ formats_uncombinable
      · exact ⟨_, by rw [validateLoop, if_neg hf, if_pos hu]⟩
      · exact ⟨_, by rw [validateLoop, if_neg hf, if_neg hu]⟩

/-- C4 (amended): an invalid format configuration terminates the run
before any device record is consulted (the outcome is one fixed message
for every device list and stat behaviour), with the message on standard
error, nothing on standard output, and exit status 1.  The status is
nonzero and distinct from the success status 0, but it coincides with
the no-match status 1, because `sys.exit(message)` always exits with
status 1. -/
theorem C4_validation (argv : CLIArgs) (env : Option String)
    (hbad : bad_format_config argv.format) :
    ∃ msg, (∀ rmatch stat devs,
        print_ttys rmatch env argv stat devs = Outcome.exitMsg msg)
      ∧ exitCode (Outcome.exitMsg msg) = 1
      ∧ stdoutOf (Outcome.exitMsg msg) = "" := by
  have hval : ∃ msg, validate_format argv.format = some msg := by
    rcases hfmt : argv.format with _ | ⟨f, rest⟩
    · rw [hfmt] at hbad
      simp [bad_format_config] at hbad
    · rcases rest with _ | ⟨f2, rest2⟩
      · rw [hfmt] at hbad
        have hunsup : f ∉ supported_formats := by
          rcases hbad with ⟨hlen, _⟩ | ⟨g, hg, hgs⟩
          · simp at hlen
          · simp only [List.mem_singleton] at hg
            exact hg ▸ hgs
        refine ⟨"Format \"" ++ f ++ "\" not supported", ?_⟩
        show (if f ∈ supported_formats then none
              else some ("Format \"" ++ f ++ "\" not supported")) = _
        rw [if_neg hunsup]
      · show ∃ msg, validateLoop (f :: f2 :: rest2) = some msg
        apply validateLoop_fail
        rw [hfmt] at hbad
        rcases hbad with ⟨_, g, hg, hgu⟩ | ⟨g, hg, hgs⟩
        · exact ⟨g, hg, uncombinable_not_combinable g hgu⟩
        · exact ⟨g, hg, fun hc => hgs (List.mem_append_left _ hc)⟩
  obtain ⟨msg, hmsg⟩ := hval
  refine ⟨msg, fun rmatch stat devs => ?_, rfl, rfl⟩
  unfold print_ttys parse_args
  rw [hmsg]

/-- C4 counterexample.  The claim asks for an exit code distinct from
both 0 and 1; the actual run of `--format table json` exits through
`sys.exit(message)`, whose status is exactly 1, the same as the no-match
status. -/
theorem C4_counterexample :
    print_ttys rm0 none argvTJ stat100 [] =
      Outcome.exitMsg "Format \"table\" cannot be combined with other formats"
    ∧ exitCode (print_ttys rm0 none argvTJ stat100 []) = 1 := by
  exact ⟨by decide, by decide⟩

/-- C4 witness: the amended theorem applied to `--format table json`. -/
theorem C4_witness :
    ∃ msg, (∀ rmatch stat devs,
        print_ttys rmatch none argvTJ stat devs = Outcome.exitMsg msg)
      ∧ exitCode (Outcome.exitMsg msg) = 1
      ∧ stdoutOf (Outcome.exitMsg msg) = "" :=
  C4_validation argvTJ none (by decide)

/-! ## C2: optional udev properties -/

/-- C2 counterexample.  The claim states that the absence of any
optional property never makes extraction fail; a raw device that lacks
only `ID_MODEL_ENC` makes `tty2dict` raise the `TypeError` of
`bytes(None, "utf8")` inside `unescape`. -/
theorem C2_counterexample :
    tty2dict stat100 devNoModel = Except.error PyError.typeError := by
  decide

/-- C2 (amended): the absent-is-null behaviour holds for `serial`,
`driver`, `model_db` and `vendor_db`, which pass through untouched; but
`model`, `vendor` and `iface_num` are processed unconditionally, so
extraction only succeeds when those three properties are present (and
the interface number parses); whenever it succeeds, the interface number
is re-serialized in canonical decimal form and the model and vendor are
the unescaped encodings. -/
theorem C2_extraction (stat : String → Except PyError ℚ) (dev : RawDev)
    (p : String) (q : ℚ) (me ve ie um uv : String) (n : Int)
    (hp : dev.get "DEVNAME" = some p) (hq : stat p = Except.ok q)
    (hme : dev.get "ID_MODEL_ENC" = some me)
    (hum : unescape me = Except.ok um)
    (hve : dev.get "ID_VENDOR_ENC" = some ve)
    (huv : unescape ve = Except.ok uv)
    (hie : dev.get "ID_USB_INTERFACE_NUM" = some ie)
    (hn : pyInt ie = Except.ok n) :
    tty2dict stat dev = Except.ok
      { path := p, ctime := q, serial := dev.get "ID_SERIAL_SHORT",
        driver := dev.get "ID_USB_DRIVER", model := some um,
        model_db := dev.get "ID_MODEL_FROM_DATABASE", vendor := some uv,
        vendor_db := dev.get "ID_VENDOR_FROM_DATABASE",
        iface_num := some (toString n) } := by
  simp only [tty2dict, hp, hq, hme, hum, hve, huv, hie, hn]

/-- C2 witness: the amended extraction applied to the raw device whose
serial property is absent: extraction succeeds and the serial field is
null. -/
theorem C2_witness :
    tty2dict stat100 devNoSerial = Except.ok
      { path := "/dev/ttyACM0", ctime := 100,
        serial := devNoSerial.get "ID_SERIAL_SHORT",
        driver := devNoSerial.get "ID_USB_DRIVER", model := some "BoardX",
        model_db := devNoSerial.get "ID_MODEL_FROM_DATABASE",
        vendor := some "VendY",
        vendor_db := devNoSerial.get "ID_VENDOR_FROM_DATABASE",
        iface_num := some (toString (0 : Int)) }
    ∧ devNoSerial.get "ID_SERIAL_SHORT" = none := by
  refine ⟨C2_extraction stat100 devNoSerial "/dev/ttyACM0" 100 "BoardX"
    "VendY" "00" "BoardX" "VendY" 0 (by decide) rfl (by decide) (by decide)
    (by decide) (by decide) (by decide) (by decide), by decide⟩

/-! ## C10: strictness of the combinable formatter -/

/-- Computation rule for `Except` bind on a success. -/
@[simp] theorem ok_bind {ε α β : Type} (a : α) (f : α → Except ε β) :
    (Except.ok a : Except ε α) >>= f = f a := rfl

/-- Computation rule for `Except` bind on a failure. -/
@[simp] theorem error_bind {ε α β : Type} (e : ε) (f : α → Except ε β) :
    (Except.error e : Except ε α) >>= f = Except.error e := rfl

/-- The items of a combinable line assemble exactly when every requested
field of the record is a string (neither absent, `None`, nor the float
`ctime`). -/
theorem line_items_ok_iff (sep : String) (r : TTYRecState)
    (fmts : List String) :
    (∃ s, line_items sep r fmts = Except.ok s) ↔
      ∀ f ∈ fmts, ∃ v, lookupState r f = some (Value.vstr v) := by
  induction fmts with
  | nil => exact ⟨fun _ => by simp, fun _ => ⟨"", rfl⟩⟩
  | cons f fs ih =>
    constructor
    · rintro ⟨s, hs⟩
      rw [line_items] at hs
      cases hl : lookupState r f with
      | none => rw [hl] at hs; exact absurd hs (by simp)
      | some v =>
        rw [hl] at hs
        cases v with
        | vnum q => simp [fmt_item] at hs
        | vnone => simp [fmt_item] at hs
        | vstr str =>
          simp only [fmt_item, ok_bind] at hs
          intro g hg
          rcases List.mem_cons.mp hg with rfl | hgm
          · exact ⟨str, hl⟩
          · cases hr : line_items sep r fs with
            | error e => rw [hr] at hs; exact absurd hs (by simp)
            | ok rest => exact (ih.mp ⟨rest, hr⟩) g hgm
    · intro h
      obtain ⟨v, hv⟩ := h f (List.mem_cons_self _ _)
      obtain ⟨rest, hrest⟩ := ih.mpr fun g hg => h g (List.mem_cons_of_mem _ hg)
      refine ⟨sep ++ (if containsStr v sep then jsonEscapeString v else v)
        ++ rest, ?_⟩
      rw [line_items, hv]
      simp [fmt_item, hrest]

/-- The whole combinable output assembles exactly when every requested
field of every record is a string. -/
theorem format_lines_ok_iff (sep : String) (fmts : List String)
    (ttys : List TTYDict) :
    (∃ s, format_lines sep fmts ttys = Except.ok s) ↔
      ∀ t ∈ ttys, ∀ f ∈ fmts, ∃ v,
        lookupState (toValueRec t) f = some (Value.vstr v) := by
  induction ttys with
  | nil => exact ⟨fun _ => by simp, fun _ => ⟨"", rfl⟩⟩
  | cons t ts ih =>
    constructor
    · rintro ⟨s, hs⟩
      rw [format_lines] at hs
      cases hf : format_line sep fmts (toValueRec t) with
      | error e => rw [hf] at hs; exact absurd hs (by simp)
      | ok line =>
        rw [hf] at hs
        simp only [ok_bind] at hs
        intro u hu
        rcases List.mem_cons.mp hu with rfl | hum
        · have hline : ∃ s2, line_items sep (toValueRec u) fmts = Except.ok s2 := by
            rw [format_line] at hf
            cases hli : line_items sep (toValueRec u) fmts with
            | error e => rw [hli] at hf; exact absurd hf (by simp)
            | ok s2 => exact ⟨s2, rfl⟩
          exact (line_items_ok_iff sep (toValueRec u) fmts).mp hline
        · cases hr : format_lines sep fmts ts with
          | error e => rw [hr] at hs; exact absurd hs (by simp)
          | ok rest => exact (ih.mp ⟨rest, hr⟩) u hum
    · intro h
      obtain ⟨line, hline⟩ := (line_items_ok_iff sep (toValueRec t) fmts).mpr
        (h t (List.mem_cons_self _ _))
      obtain ⟨rest, hrest⟩ := ih.mpr fun u hu g hg =>
        h u (List.mem_cons_of_mem _ hu) g hg
      refine ⟨strDrop line sep.length ++ "\n" ++ rest, ?_⟩
      rw [format_lines, format_line, hline]
      simp [hrest]

/-- C10: in combinable mode, output is produced exactly when every
requested field of every record is a non-null string; a `None` field (or
the numeric `ctime`) makes the formatter raise instead of printing a
placeholder, while the `str` conversion used by the table renderer shows
a null field as the text `None`. -/
theorem C10_combinable_strict (p : ParsedArgs) (ttys : List TTYDict)
    (hj : p.format ≠ ["json"]) (ht : p.format ≠ ["table"]) :
    ((∃ out post, print_results p ttys = Except.ok (out, post)) ↔
      ∀ t ∈ ttys, ∀ f ∈ p.format, ∃ s,
        lookupState (toValueRec t) f = some (Value.vstr s))
    ∧ strOfValue (optVal none) = "None" := by
  refine ⟨?_, rfl⟩
  unfold print_results
  rw [if_neg hj, if_neg ht]
  constructor
  · rintro ⟨out, post, hok⟩
    cases hf : format_lines p.format_sep p.format ttys with
    | error e => rw [hf] at hok; exact absurd hok (by simp)
    | ok s => exact (format_lines_ok_iff _ _ _).mp ⟨s, hf⟩
  · intro h
    obtain ⟨s, hs⟩ := (format_lines_ok_iff p.format_sep p.format ttys).mpr h
    exact ⟨s, ttys.map toValueRec, by rw [hs]⟩

/-- C10 witness: a record with a null serial admits no combinable
`--format serial` output (the theorem excludes a success, and the
concrete evaluation indeed raises an `AttributeError`). -/
theorem C10_witness :
    (¬ ∃ out post, print_results parsedSerialFmt [recNoSerial] =
        Except.ok (out, post))
    ∧ print_results parsedSerialFmt [recNoSerial] =
        Except.error PyError.attributeError := by
  constructor
  · intro hex
    have h := ((C10_combinable_strict parsedSerialFmt [recNoSerial]
      (by decide) (by decide)).1.mp hex) recNoSerial (List.mem_cons_self _ _)
      "serial" (List.mem_cons_self _ _)
    obtain ⟨s, hs⟩ := h
    have hv : lookupState (toValueRec recNoSerial) "serial" =
        some Value.vnone := rfl
    rw [hv] at hs
    simp at hs
  · decide

/-! ## C3: combinable formatting and the ctime bug -/

/-- C3.  The joining and quoting clauses of the claim hold on the
scenarios the specification names: `--format path serial --format-sep ,`
prints the two fields joined by the comma, and a vendor string containing
the separator is JSON-quoted while the path is not.  The `ctime` clause
is a code bug: `ctime` is advertised as a combinable format by the
program itself (it is a member of `formats_combinable`, so `--format
ctime` passes validation), but the float value stored under `ctime` has
no `rfind` attribute, so the formatter raises an `AttributeError` instead
of printing the raw numeric timestamp. -/
theorem C3_combinable_scenarios :
    print_results parsedCtime [rec100] = Except.error PyError.attributeError
    ∧ (print_results parsedPS [rec100]).map Prod.fst =
        Except.ok "/dev/ttyACM0,XYZ\n"
    ∧ (print_results parsedPV [recVsep]).map Prod.fst =
        Except.ok "/dev/ttyACM0 \"Ven dor\"\n"
    ∧ "ctime" ∈ formats_combinable
    ∧ validate_format ["ctime"] = none := by
  exact ⟨by decide, by decide, by decide, by decide, by decide⟩

/-! ## C5: exit codes of a validly configured run -/

/-- C5 counterexample.  The claim promises printed records and exit
status 0 for every validly configured run whose final record set is
nonempty; the run `--format serial` over one device with no serial
property survives filtering but the formatter raises an
`AttributeError`, so the process terminates with a nonzero status and
without the promised output. -/
theorem C5_counterexample :
    print_ttys rm0 none argvSerialFmt stat100 [devNoSerial] =
      Outcome.exn PyError.attributeError
    ∧ exitCode (print_ttys rm0 none argvSerialFmt stat100 [devNoSerial]) ≠ 0 := by
  exact ⟨by decide, by decide⟩

/-- C5 (amended): in a run that parses and extracts successfully, an
empty final record set exits with status 1 and prints nothing; a
nonempty final record set is printed with exit status 0 provided the
formatter succeeds on it (table and json always do; a combinable format
fails on any requested field that is not a non-null string, as C10
records). -/
theorem C5_exit_codes (rmatch : String → String → Bool) (env : Option String)
    (argv : CLIArgs) (stat : String → Except PyError ℚ) (devs : List RawDev)
    (parsed : ParsedArgs) (ttys : List TTYDict)
    (hp : parse_args env argv = Except.ok parsed)
    (hx : extractAll stat devs = Except.ok ttys) :
    (finalSet rmatch parsed ttys = [] →
      print_ttys rmatch env argv stat devs = Outcome.exitNoMatch
      ∧ stdoutOf (print_ttys rmatch env argv stat devs) = ""
      ∧ exitCode (print_ttys rmatch env argv stat devs) = 1)
    ∧ (∀ out post, finalSet rmatch parsed ttys ≠ [] →
        print_results parsed (finalSet rmatch parsed ttys) =
          Except.ok (out, post) →
        print_ttys rmatch env argv stat devs = Outcome.success out
        ∧ exitCode (print_ttys rmatch env argv stat devs) = 0) := by
  have hunfold : print_ttys rmatch env argv stat devs =
      (if (finalSet rmatch parsed ttys).isEmpty then Outcome.exitNoMatch
       else
         match print_results parsed (finalSet rmatch parsed ttys) with
         | Except.error e => Outcome.exn e
         | Except.ok (out, _) => Outcome.success out) := by
    simp only [print_ttys, hp, hx]
  constructor
  · intro hempty
    have hE : (finalSet rmatch parsed ttys).isEmpty = true := by
      rw [hempty]; rfl
    rw [hunfold, if_pos hE]
    exact ⟨rfl, rfl, rfl⟩
  · intro out post hne hok
    have hE : (finalSet rmatch parsed ttys).isEmpty = false := by
      cases hfs : finalSet rmatch parsed ttys with
      | nil => exact absurd hfs hne
      | cons a l => rfl
    rw [hunfold, if_neg (by simp [hE]), hok]
    exact ⟨rfl, rfl⟩

/-- C5 witness: `--serial ZZZ` over one non-matching device leaves an
empty final set, and the run exits with status 1 and no output. -/
theorem C5_witness :
    print_ttys rm0 none argvZZZ stat100 [devFull] = Outcome.exitNoMatch
    ∧ stdoutOf (print_ttys rm0 none argvZZZ stat100 [devFull]) = ""
    ∧ exitCode (print_ttys rm0 none argvZZZ stat100 [devFull]) = 1 :=
  (C5_exit_codes rm0 none argvZZZ stat100 [devFull] parsedZZZ [rec100]
    (by decide) (by decide)).1 (by decide)

/-! ## C1: the table renderer and record state -/

/-- Optional strings enter the record state as strings or `None`. -/
theorem isStrOrNone_optVal (o : Option String) : isStrOrNone (optVal o) := by
  cases o <;> trivial

/-- Every record the table mode hands to `print_table` has only string
or `None` entries: `ctime` has just been overwritten with its display
string. -/
theorem stateOk_table_convert (t : TTYDict) : stateOk (table_convert t) :=
  ⟨trivial, trivial, isStrOrNone_optVal _, isStrOrNone_optVal _,
   isStrOrNone_optVal _, isStrOrNone_optVal _, isStrOrNone_optVal _,
   isStrOrNone_optVal _, isStrOrNone_optVal _⟩

/-- Looking up any of the standard headers succeeds, and on a
string-or-`None` record yields a string-or-`None` value. -/
theorem lookup_std_ok (r : TTYRecState) (hd : String)
    (hmem : hd ∈ headers_std) :
    ∃ v, lookupState r hd = some v ∧ (stateOk r → isStrOrNone v) := by
  simp only [headers_std, List.mem_cons, List.not_mem_nil, or_false] at hmem
  rcases hmem with rfl | rfl | rfl | rfl | rfl | rfl | rfl | rfl
  · exact ⟨r.path, rfl, fun h => h.1⟩
  · exact ⟨r.driver, rfl, fun h => h.2.2.2.1⟩
  · exact ⟨r.vendor, rfl, fun h => h.2.2.2.2.2.2.1⟩
  · exact ⟨r.model, rfl, fun h => h.2.2.2.2.1⟩
  · exact ⟨r.model_db, rfl, fun h => h.2.2.2.2.2.1⟩
  · exact ⟨r.serial, rfl, fun h => h.2.2.1⟩
  · exact ⟨r.ctime, rfl, fun h => h.2.1⟩
  · exact ⟨r.iface_num, rfl, fun h => h.2.2.2.2.2.2.2.2⟩

/-- Dict access on a known key. -/
theorem getItem_eq (r : TTYRecState) (hd : String) (v : Value)
    (hv : lookupState r hd = some v) : getItem r hd = Except.ok v := by
  unfold getItem
  rw [hv]

/-- One width update never fails on a string-or-`None` record once the
running width is at least the four characters of the text `None` (the
headers guarantee that): the dangerous `len(None)` assignment of source
line 149 is unreachable because the `None` display never exceeds such a
width. -/
theorem lenStep_ok (r : TTYRecState) (hd : String) (len : Nat)
    (hr : stateOk r) (hmem : hd ∈ headers_std) (hl : 4 ≤ len) :
    ∃ len2, lenStep r hd len = Except.ok len2 ∧ 4 ≤ len2 := by
  obtain ⟨v, hv, hok⟩ := lookup_std_ok r hd hmem
  have hson := hok hr
  unfold lenStep
  rw [hv]
  show ∃ len2, (if (strOfValue v).length > len then pyLenValue v
    else Except.ok len) = Except.ok len2 ∧ 4 ≤ len2
  cases v with
  | vnum q => exact hson.elim
  | vnone =>
    have hlen4 : (strOfValue Value.vnone).length = 4 := by decide
    refine ⟨len, ?_, hl⟩
    rw [if_neg (by omega)]
  | vstr s =>
    by_cases hgt : (strOfValue (Value.vstr s)).length > len
    · refine ⟨s.length, by rw [if_pos hgt]; rfl, ?_⟩
      have : (strOfValue (Value.vstr s)).length = s.length := rfl
      omega
    · exact ⟨len, by rw [if_neg hgt], hl⟩

/-- The width updates of one record preserve success, the four-character
lower bound and the number of columns. -/
theorem lensForItem_ok (r : TTYRecState) (hr : stateOk r) :
    ∀ (hs : List String) (lens : List Nat),
      (∀ h ∈ hs, h ∈ headers_std) → (∀ l ∈ lens, 4 ≤ l) →
      ∃ lens2, lensForItem r hs lens = Except.ok lens2
        ∧ (∀ l ∈ lens2, 4 ≤ l)
        ∧ lens2.length = min hs.length lens.length := by
  intro hs
  induction hs with
  | nil => intro lens _ _; exact ⟨[], rfl, by simp, by simp⟩
  | cons hd hs ih =>
    intro lens hmem hlen
    cases lens with
    | nil => exact ⟨[], rfl, by simp, by simp⟩
    | cons l ls =>
      obtain ⟨len2, hstep, h4⟩ := lenStep_ok r hd l hr
        (hmem hd (List.mem_cons_self _ _)) (hlen l (List.mem_cons_self _ _))
      obtain ⟨lens2, hrec, h42, hlen2⟩ :=
        ih ls (fun h hh => hmem h (List.mem_cons_of_mem _ hh))
          (fun x hx => hlen x (List.mem_cons_of_mem _ hx))
      refine ⟨len2 :: lens2, ?_, ?_, ?_⟩
      · rw [lensForItem, hstep]
        simp [hrec]
      · intro x hx
        rcases List.mem_cons.mp hx with rfl | hx2
        · exact h4
        · exact h42 x hx2
      · simp only [List.length_cons, hlen2]
        omega

/-- The whole column sizing pass succeeds on string-or-`None` records,
keeps all eight columns and the four-character lower bound. -/
theorem computeLensGo_ok (data : List TTYRecState)
    (hall : ∀ r ∈ data, stateOk r) :
    ∀ lens : List Nat, (∀ l ∈ lens, 4 ≤ l) → lens.length = 8 →
    ∃ lens2, computeLensGo headers_std data lens = Except.ok lens2
      ∧ (∀ l ∈ lens2, 4 ≤ l) ∧ lens2.length = 8 := by
  induction data with
  | nil => intro lens h4 h8; exact ⟨lens, rfl, h4, h8⟩
  | cons r data ih =>
    intro lens h4 h8
    obtain ⟨lens2, hli, h42, hl2⟩ :=
      lensForItem_ok r (hall r (List.mem_cons_self _ _)) headers_std lens
        (fun h hh => hh) h4
    have hl2len : lens2.length = 8 := by rw [hl2, h8]; decide
    obtain ⟨lens3, hrec, h43, hl3⟩ :=
      ih (fun x hx => hall x (List.mem_cons_of_mem _ hx)) lens2 h42 hl2len
    refine ⟨lens3, ?_, h43, hl3⟩
    rw [computeLensGo, hli]
    simp [hrec]

/-- First components of zipped pairs come from the first list. -/
theorem mem_zip_left {α β : Type} :
    ∀ (l1 : List α) (l2 : List β) (p : α × β), p ∈ l1.zip l2 → p.1 ∈ l1 := by
  intro l1
  induction l1 with
  | nil => intro l2 p h; simp at h
  | cons a as ih =>
    intro l2 p h
    cases l2 with
    | nil => simp at h
    | cons b bs =>
      rw [List.zip_cons_cons] at h
      rcases List.mem_cons.mp h with rfl | h2
      · exact List.mem_cons_self _ _
      · exact List.mem_cons_of_mem _ (ih bs p h2)

/-- The trailing cells of one row assemble for headers drawn from the
standard list. -/
theorem cellsFor_ok (r : TTYRecState) :
    ∀ hl : List (String × Nat), (∀ p ∈ hl, p.1 ∈ headers_std) →
    ∃ s, cellsFor r hl = Except.ok s := by
  intro hl
  induction hl with
  | nil => intro _; exact ⟨"", rfl⟩
  | cons p ps ih =>
    intro hmem
    obtain ⟨v, hv, _⟩ := lookup_std_ok r p.1 (hmem p (List.mem_cons_self _ _))
    obtain ⟨s, hrec⟩ := ih fun x hx => hmem x (List.mem_cons_of_mem _ hx)
    refine ⟨" | " ++ padTo (strOfValue v) p.2 ++ s, ?_⟩
    rw [cellsFor, getItem_eq r p.1 v hv]
    simp [hrec]

/-- One data row assembles for headers drawn from the standard list. -/
theorem rowForItem_ok (r : TTYRecState) (h0 : String) (l0 : Nat)
    (hl : List (String × Nat)) (hm0 : h0 ∈ headers_std)
    (hmem : ∀ p ∈ hl, p.1 ∈ headers_std) :
    ∃ s, rowForItem r h0 l0 hl = Except.ok s := by
  obtain ⟨v0, hv0, _⟩ := lookup_std_ok r h0 hm0
  obtain ⟨cells, hcells⟩ := cellsFor_ok r hl hmem
  refine ⟨"\n" ++ padTo (strOfValue v0) l0 ++ cells, ?_⟩
  rw [rowForItem, getItem_eq r h0 v0 hv0]
  simp [hcells]

/-- All data rows assemble for headers drawn from the standard list. -/
theorem rowsFor_ok (h0 : String) (l0 : Nat) (hl : List (String × Nat))
    (hm0 : h0 ∈ headers_std) (hmem : ∀ p ∈ hl, p.1 ∈ headers_std) :
    ∀ data : List TTYRecState, ∃ s, rowsFor h0 l0 hl data = Except.ok s := by
  intro data
  induction data with
  | nil => exact ⟨"", rfl⟩
  | cons r rest ih =>
    obtain ⟨row, hrow⟩ := rowForItem_ok r h0 l0 hl hm0 hmem
    obtain ⟨s, hs⟩ := ih
    refine ⟨row ++ s, ?_⟩
    rw [rowsFor, hrow]
    simp [hs]

/-- The table renderer always succeeds on the standard headers when
every record entry is a string or `None` (which is how the table mode
hands over its records). -/
theorem print_table_ok (data : List TTYRecState)
    (hall : ∀ r ∈ data, stateOk r) :
    ∃ out, print_table data headers_std = Except.ok out := by
  obtain ⟨lens, hcl, h4, h8⟩ := computeLensGo_ok data hall
    (headers_std.map String.length) (by decide) (by decide)
  have hcl2 : computeLens data headers_std = Except.ok lens := hcl
  cases lens with
  | nil => simp at h8
  | cons l0 lrest =>
    have h7 : lrest.length = 7 := by
      simp only [List.length_cons] at h8
      omega
    unfold print_table
    rw [hcl2]
    simp only [ok_bind]
    show ∃ out, (if lrest.length <
        (["driver", "vendor", "model", "model_db", "serial", "ctime",
          "iface_num"] : List String).length then
        (Except.error PyError.indexError : Except PyError String)
      else do
        let hl := (["driver", "vendor", "model", "model_db", "serial",
          "ctime", "iface_num"] : List String).zip lrest
        let top := padTo "path" l0 ++
          String.join (hl.map fun p => " | " ++ padTo p.1 p.2)
        let sepRow := "\n" ++ dashes l0 ++
          String.join (hl.map fun p => "-|-" ++ dashes p.2)
        let rows ← rowsFor "path" l0 hl data
        Except.ok (top ++ sepRow ++ rows ++ "\n")) = Except.ok out
    rw [if_neg (by rw [h7]; decide)]
    obtain ⟨rows, hrows⟩ := rowsFor_ok "path" l0
      ((["driver", "vendor", "model", "model_db", "serial", "ctime",
        "iface_num"] : List String).zip lrest)
      (by decide)
      (fun p hp => by
        have h1 := mem_zip_left _ _ p hp
        simp only [headers_std, List.mem_cons, List.not_mem_nil, or_false]
          at h1 ⊢
        tauto)
      data
    simp only [hrows, ok_bind]
    exact ⟨_, rfl⟩

/-- C1 counterexample.  The claim states that after table output every
record field, in particular `ctime`, still equals its construction-time
value; the concrete run shows the post-call `ctime` entry is the display
string, no longer the numeric timestamp the record was built with. -/
theorem C1_counterexample :
    (print_results parsedTable [rec100]).map
        (fun pr => pr.2.map TTYRecState.ctime) =
      Except.ok [Value.vstr "00:01:40"]
    ∧ Value.vstr "00:01:40" ≠ Value.vnum rec100.ctime := by
  exact ⟨by decide, by decide⟩

/-- C1 (amended): table rendering always succeeds and mutates each
record dict in place: afterwards the `ctime` entry holds the `HH:MM:SS`
display string instead of the construction-time timestamp, while every
other entry still holds its construction-time value.  The conversion
happens after filtering and selection, which therefore still see the
canonical numeric timestamps. -/
theorem C1_table_state (p : ParsedArgs) (ttys : List TTYDict)
    (hfmt : p.format = ["table"]) :
    ∃ out, print_results p ttys = Except.ok (out,
      ttys.map fun t =>
        { path := Value.vstr t.path, ctime := Value.vstr (hms t.ctime),
          serial := optVal t.serial, driver := optVal t.driver,
          model := optVal t.model, model_db := optVal t.model_db,
          vendor := optVal t.vendor, vendor_db := optVal t.vendor_db,
          iface_num := optVal t.iface_num }) := by
  have hmap : (ttys.map fun t =>
      ({ path := Value.vstr t.path, ctime := Value.vstr (hms t.ctime),
         serial := optVal t.serial, driver := optVal t.driver,
         model := optVal t.model, model_db := optVal t.model_db,
         vendor := optVal t.vendor, vendor_db := optVal t.vendor_db,
         iface_num := optVal t.iface_num } : TTYRecState)) =
      ttys.map table_convert := rfl
  rw [hmap]
  obtain ⟨out, hout⟩ := print_table_ok (ttys.map table_convert)
    (by
      intro r hr
      obtain ⟨t, _, rfl⟩ := List.mem_map.mp hr
      exact stateOk_table_convert t)
  refine ⟨out, ?_⟩
  unfold print_results
  rw [if_neg (by rw [hfmt]; decide), if_pos hfmt]
  simp only [hout]

/-- C1 witness: the amended theorem applied to the table run over the
concrete record with timestamp 100. -/
theorem C1_witness :
    ∃ out, print_results parsedTable [rec100] = Except.ok (out,
      [rec100].map fun t =>
        { path := Value.vstr t.path, ctime := Value.vstr (hms t.ctime),
          serial := optVal t.serial, driver := optVal t.driver,
          model := optVal t.model, model_db := optVal t.model_db,
          vendor := optVal t.vendor, vendor_db := optVal t.vendor_db,
          iface_num := optVal t.iface_num }) :=
  C1_table_state parsedTable [rec100] rfl

end Ttys
